import Mathlib

/-!
Shallow embedding of the core logic of `src/app.py` (a Streamlit question-bank
and quiz application).  Python dictionaries keyed by question id are modelled
as association lists with insert-or-overwrite semantics; Python lists are Lean
lists; Python strings are Lean strings (Python `==` on `str` is exact
code-point equality, as is Lean `String` equality).
-/

namespace QuizApp

/-- Association-list lookup, modelling Python `d[k]` / `d.get(k)` on a dict
with unique keys. -/
def lookupA {α : Type} : List (Nat × α) → Nat → Option α
  | [], _ => none
  | (k', v') :: t, k => if k' = k then some v' else lookupA t k

/-- Association-list insert-or-overwrite, modelling Python `d[k] = v`. -/
def insertA {α : Type} : List (Nat × α) → Nat → α → List (Nat × α)
  | [], k, v => [(k, v)]
  | (k', v') :: t, k, v => if k' = k then (k, v) :: t else (k', v') :: insertA t k v

theorem lookupA_insertA {α : Type} (m : List (Nat × α)) (k k' : Nat) (v : α) :
    lookupA (insertA m k v) k' = if k' = k then some v else lookupA m k' := by
  induction m with
  | nil =>
    by_cases h : k' = k
    · subst h; simp [insertA, lookupA]
    · have h2 : ¬ k = k' := fun hh => h hh.symm
      simp [insertA, lookupA, h, h2]
  | cons p t ih =>
    obtain ⟨k0, v0⟩ := p
    by_cases h0 : k0 = k
    · subst h0
      by_cases h : k' = k0
      · subst h; simp [insertA, lookupA]
      · have h2 : ¬ k0 = k' := fun hh => h hh.symm
        simp [insertA, lookupA, h, h2]
    · by_cases h : k0 = k'
      · subst h
        simp [insertA, lookupA, h0]
      · by_cases h4 : k' = k
        · subst h4
          simp [insertA, lookupA, h0, h, ih]
        · simp [insertA, lookupA, h0, h, h4, ih]

/-- A question record, with the fields the core logic of `app.py` reads.
`category`, `topic`, `explanation` model Python `q.get(...)` (absent key =
`none`).  `qid` is the stable identifier (a hex string in the source; an
abstract `Nat` here). -/
structure Question where
  qid : Nat
  id_num : Nat
  category : Option String
  topic : Option String
  question : String
  choices : List String
  answer : String
  explanation : Option String
deriving DecidableEq, Repr

/-- One record of `stats["attempts"]`. -/
structure Attempt where
  qid : Nat
  correct : Bool
  ts : Nat
deriving DecidableEq, Repr

/-- The answer-history store `stats` (`stats.json`). -/
structure Stats where
  user_answers : List (Nat × String)
  attempts : List Attempt
  flagged : List Nat
deriving DecidableEq, Repr

/-- Function `status_of` (app.py:187-195): `"Unanswered"` when the qid has no entry in
`user_answers`, `"Correct"` when the recorded string equals `q["answer"]`
exactly, `"Incorrect"` otherwise. -/
def status_of (stats : Stats) (q : Question) : String :=
  match lookupA stats.user_answers q.qid with
  | none => "Unanswered"
  | some a => if a = q.answer then "Correct" else "Incorrect"

/-- Function `build_standard_pool` (app.py:241-251): keep a question unless one of the
three filters is active (not the sentinel `"All"`) and does not match. -/
def build_standard_pool (bank : List Question) (stats : Stats)
    (cat topic status : String) : List Question :=
  bank.filter (fun q =>
    (cat == "All" || q.category == some cat) &&
    (topic == "All" || q.topic == some topic) &&
    (status == "All" || status_of stats q == status))

/-- The loop condition of app.py:263-264: answered and recorded ≠ answer. -/
def incB (stats : Stats) (q : Question) : Bool :=
  match lookupA stats.user_answers q.qid with
  | some a => decide (a ≠ q.answer)
  | none => false

/-- The loop condition of app.py:263,266: answered and recorded = answer. -/
def corB (stats : Stats) (q : Question) : Bool :=
  match lookupA stats.user_answers q.qid with
  | some a => decide (a = q.answer)
  | none => false

/-- Test `qid in stats["user_answers"]` (app.py:263). -/
def ansB (stats : Stats) (q : Question) : Bool :=
  (lookupA stats.user_answers q.qid).isSome

/-- Test `qid in stats["flagged"]` (app.py:271). -/
def flagB (stats : Stats) (q : Question) : Bool :=
  decide (q.qid ∈ stats.flagged)

/-- Function `build_adaptive_pool` (app.py:254-281).  The single pass over `bank`
appending to the four bucket lists is embedded as four stable filters of
`bank`; the three `[q for q in ... if q not in pool]` comprehensions are
evaluated against the pool as it stood before each `extend`, and compare
whole records (Python dict `==`), i.e. structural equality on `Question`. -/
def build_adaptive_pool (bank : List Question) (stats : Stats) : List Question :=
  let incorrect := bank.filter (fun q => incB stats q)
  let flaggedL := bank.filter (fun q => flagB stats q)
  let unanswered := bank.filter (fun q => !(ansB stats q))
  let rest := bank.filter (fun q => corB stats q)
  let pool1 := incorrect
  let pool2 := pool1 ++ flaggedL.filter (fun q => decide (q ∉ pool1))
  let pool3 := pool2 ++ unanswered.filter (fun q => decide (q ∉ pool2))
  pool3 ++ rest.filter (fun q => decide (q ∉ pool3))

/-! ### Facts about the status predicates -/

theorem incB_eq_false_of_not_ans (stats : Stats) (q : Question)
    (h : ansB stats q = false) : incB stats q = false := by
  unfold ansB at h
  unfold incB
  cases hl : lookupA stats.user_answers q.qid with
  | none => rfl
  | some a => rw [hl] at h; simp at h

theorem incB_eq_false_of_cor (stats : Stats) (q : Question)
    (h : corB stats q = true) : incB stats q = false := by
  unfold corB at h
  unfold incB
  cases hl : lookupA stats.user_answers q.qid with
  | none => rfl
  | some a =>
    rw [hl] at h
    simp only [decide_eq_true_eq] at h
    simp [h]

theorem ansB_eq_true_of_cor (stats : Stats) (q : Question)
    (h : corB stats q = true) : ansB stats q = true := by
  unfold corB at h
  unfold ansB
  cases hl : lookupA stats.user_answers q.qid with
  | none => rw [hl] at h; simp at h
  | some a => simp

/-! ### C4: `status_of` trichotomy -/

/-- Claim C4: For every question and history, `status_of` returns exactly one of
`"Unanswered"`, `"Correct"`, `"Incorrect"`; it returns `"Unanswered"` iff the
qid has no entry in `user_answers`, `"Correct"` iff the recorded answer string
is exactly equal to `question.answer`, and `"Incorrect"` otherwise. -/
theorem status_of_trichotomy (stats : Stats) (q : Question) :
    (status_of stats q = "Unanswered" ∨ status_of stats q = "Correct" ∨
      status_of stats q = "Incorrect") ∧
    (status_of stats q = "Unanswered" ↔ lookupA stats.user_answers q.qid = none) ∧
    (status_of stats q = "Correct" ↔
      ∃ a, lookupA stats.user_answers q.qid = some a ∧ a = q.answer) ∧
    (status_of stats q = "Incorrect" ↔
      ∃ a, lookupA stats.user_answers q.qid = some a ∧ a ≠ q.answer) := by
  cases hl : lookupA stats.user_answers q.qid with
  | none => simp [status_of, hl]
  | some a =>
    by_cases hc : a = q.answer
    · subst hc
      simp [status_of, hl]
    · simp [status_of, hl, hc]

/-! ### C3: standard pool filter correctness -/

/-- Claim C3: A question appears in `build_standard_pool` iff it is in the bank
and passes all three filters (each filter either the sentinel `"All"` or an
exact match), and the result is a stable subsequence of the bank's order. -/
theorem standard_pool_filter_correct (bank : List Question) (stats : Stats)
    (cat topic status : String) :
    (∀ q, q ∈ build_standard_pool bank stats cat topic status ↔
      q ∈ bank ∧ (cat = "All" ∨ q.category = some cat) ∧
        (topic = "All" ∨ q.topic = some topic) ∧
        (status = "All" ∨ status_of stats q = status)) ∧
    (build_standard_pool bank stats cat topic status).Sublist bank := by
  refine ⟨fun q => ?_, List.filter_sublist _⟩
  unfold build_standard_pool
  rw [List.mem_filter]
  simp [Bool.and_eq_true, Bool.or_eq_true, and_assoc]

/-! ### C1: adaptive pool decomposition -/

theorem flag_bucket_eq (bank : List Question) (stats : Stats) :
    (bank.filter (fun q => flagB stats q)).filter
      (fun q => decide (q ∉ bank.filter (fun q => incB stats q))) =
    bank.filter (fun q => flagB stats q && !incB stats q) := by
  rw [List.filter_filter]
  apply List.filter_congr
  intro x hx
  cases hi : incB stats x with
  | true =>
    have hmem : x ∈ bank.filter (fun q => incB stats q) :=
      List.mem_filter.mpr ⟨hx, hi⟩
    simp [hmem, hi]
  | false =>
    have hnm : x ∉ bank.filter (fun q => incB stats q) := by
      intro hm
      have := (List.mem_filter.mp hm).2
      rw [hi] at this
      exact Bool.false_ne_true this
    simp [hnm, hi]

theorem unanswered_bucket_eq (bank : List Question) (stats : Stats) :
    (bank.filter (fun q => !ansB stats q)).filter
      (fun q => decide (q ∉ bank.filter (fun q => incB stats q)
        ++ bank.filter (fun q => flagB stats q && !incB stats q))) =
    bank.filter (fun q => !ansB stats q && !flagB stats q) := by
  rw [List.filter_filter]
  apply List.filter_congr
  intro x hx
  cases ha : ansB stats x with
  | true => simp [ha]
  | false =>
    have hi : incB stats x = false := incB_eq_false_of_not_ans stats x ha
    cases hf : flagB stats x with
    | true =>
      have hmem : x ∈ bank.filter (fun q => incB stats q)
          ++ bank.filter (fun q => flagB stats q && !incB stats q) := by
        rw [List.mem_append]
        exact Or.inr (List.mem_filter.mpr ⟨hx, by rw [hf, hi]; rfl⟩)
      simp [hmem, ha, hf]
    | false =>
      have hnm : x ∉ bank.filter (fun q => incB stats q)
          ++ bank.filter (fun q => flagB stats q && !incB stats q) := by
        rw [List.mem_append]
        rintro (hm | hm)
        · have := (List.mem_filter.mp hm).2
          rw [hi] at this
          exact Bool.false_ne_true this
        · have := (List.mem_filter.mp hm).2
          rw [hf, hi] at this
          exact Bool.false_ne_true this
      simp [hnm, ha, hf]

theorem rest_bucket_eq (bank : List Question) (stats : Stats) :
    (bank.filter (fun q => corB stats q)).filter
      (fun q => decide (q ∉ (bank.filter (fun q => incB stats q)
        ++ bank.filter (fun q => flagB stats q && !incB stats q))
        ++ bank.filter (fun q => !ansB stats q && !flagB stats q))) =
    bank.filter (fun q => corB stats q && !flagB stats q) := by
  rw [List.filter_filter]
  apply List.filter_congr
  intro x hx
  cases hcor : corB stats x with
  | true =>
    have hi : incB stats x = false := incB_eq_false_of_cor stats x hcor
    have ha : ansB stats x = true := ansB_eq_true_of_cor stats x hcor
    cases hf : flagB stats x with
    | true =>
      have hmem : x ∈ (bank.filter (fun q => incB stats q)
          ++ bank.filter (fun q => flagB stats q && !incB stats q))
          ++ bank.filter (fun q => !ansB stats q && !flagB stats q) := by
        rw [List.mem_append, List.mem_append]
        exact Or.inl (Or.inr (List.mem_filter.mpr ⟨hx, by rw [hf, hi]; rfl⟩))
      have hd : decide (x ∉ (bank.filter (fun q => incB stats q)
          ++ bank.filter (fun q => flagB stats q && !incB stats q))
          ++ bank.filter (fun q => !ansB stats q && !flagB stats q)) = false :=
        decide_eq_false (not_not_intro hmem)
      simp only [hd, hcor, hf, Bool.false_and, Bool.not_true, Bool.and_false]
    | false =>
      have hnm : x ∉ (bank.filter (fun q => incB stats q)
          ++ bank.filter (fun q => flagB stats q && !incB stats q))
          ++ bank.filter (fun q => !ansB stats q && !flagB stats q) := by
        rw [List.mem_append, List.mem_append]
        rintro ((hm | hm) | hm)
        · have := (List.mem_filter.mp hm).2
          rw [hi] at this
          exact Bool.false_ne_true this
        · have := (List.mem_filter.mp hm).2
          rw [hf, hi] at this
          exact Bool.false_ne_true this
        · have := (List.mem_filter.mp hm).2
          rw [ha, hf] at this
          exact Bool.false_ne_true this
      have hd : decide (x ∉ (bank.filter (fun q => incB stats q)
          ++ bank.filter (fun q => flagB stats q && !incB stats q))
          ++ bank.filter (fun q => !ansB stats q && !flagB stats q)) = true :=
        decide_eq_true hnm
      simp only [hd, hcor, hf, Bool.true_and, Bool.not_false, Bool.and_true]
  | false => simp [hcor]

/-- Helper: `build_adaptive_pool` equals the four disjoint bucket filters in
priority order (the dedup comprehensions reduce to predicate exclusions). -/
theorem adaptive_pool_eq_buckets (bank : List Question) (stats : Stats) :
    build_adaptive_pool bank stats =
      bank.filter (fun q => incB stats q)
      ++ bank.filter (fun q => flagB stats q && !incB stats q)
      ++ bank.filter (fun q => !ansB stats q && !flagB stats q)
      ++ bank.filter (fun q => corB stats q && !flagB stats q) := by
  unfold build_adaptive_pool
  simp only [flag_bucket_eq, unanswered_bucket_eq, rest_bucket_eq]

theorem count_filter_of_neg {α : Type} [DecidableEq α] (p : α → Bool) (a : α)
    (l : List α) (h : p a = false) : (l.filter p).count a = 0 := by
  rw [List.count_eq_zero]
  intro hm
  have := (List.mem_filter.mp hm).2
  rw [h] at this
  exact Bool.false_ne_true this

theorem count_filter_of_pos {α : Type} [DecidableEq α] (p : α → Bool) (a : α)
    (l : List α) (h : p a = true) : (l.filter p).count a = l.count a :=
  List.count_filter h

/-- Helper: the adaptive pool is a permutation of the whole bank (each bank
record, counted with multiplicity, survives the dedup exactly once). -/
theorem adaptive_pool_perm_bank (bank : List Question) (stats : Stats) :
    (build_adaptive_pool bank stats).Perm bank := by
  rw [adaptive_pool_eq_buckets, List.perm_iff_count]
  intro q
  rw [List.count_append, List.count_append, List.count_append]
  cases hl : lookupA stats.user_answers q.qid with
  | none =>
    have e1 : incB stats q = false := by simp [incB, hl]
    have e2 : corB stats q = false := by simp [corB, hl]
    have e3 : ansB stats q = false := by simp [ansB, hl]
    cases hf : flagB stats q with
    | true =>
      rw [count_filter_of_neg (fun q => incB stats q) q bank e1,
        count_filter_of_pos (fun q => flagB stats q && !incB stats q) q bank (by simp [hf, e1]),
        count_filter_of_neg (fun q => !ansB stats q && !flagB stats q) q bank (by simp [hf]),
        count_filter_of_neg (fun q => corB stats q && !flagB stats q) q bank (by simp [e2])]
      omega
    | false =>
      rw [count_filter_of_neg (fun q => incB stats q) q bank e1,
        count_filter_of_neg (fun q => flagB stats q && !incB stats q) q bank (by simp [hf]),
        count_filter_of_pos (fun q => !ansB stats q && !flagB stats q) q bank (by simp [e3, hf]),
        count_filter_of_neg (fun q => corB stats q && !flagB stats q) q bank (by simp [e2])]
      omega
  | some a =>
    by_cases hc : a = q.answer
    · have e1 : incB stats q = false := by simp [incB, hl, hc]
      have e2 : corB stats q = true := by simp [corB, hl, hc]
      have e3 : ansB stats q = true := by simp [ansB, hl]
      cases hf : flagB stats q with
      | true =>
        rw [count_filter_of_neg (fun q => incB stats q) q bank e1,
          count_filter_of_pos (fun q => flagB stats q && !incB stats q) q bank (by simp [hf, e1]),
          count_filter_of_neg (fun q => !ansB stats q && !flagB stats q) q bank (by simp [e3]),
          count_filter_of_neg (fun q => corB stats q && !flagB stats q) q bank (by simp [hf])]
        omega
      | false =>
        rw [count_filter_of_neg (fun q => incB stats q) q bank e1,
          count_filter_of_neg (fun q => flagB stats q && !incB stats q) q bank (by simp [hf]),
          count_filter_of_neg (fun q => !ansB stats q && !flagB stats q) q bank (by simp [e3]),
          count_filter_of_pos (fun q => corB stats q && !flagB stats q) q bank (by simp [e2, hf])]
        omega
    · have e1 : incB stats q = true := by simp [incB, hl, hc]
      have e2 : corB stats q = false := by simp [corB, hl, hc]
      have e3 : ansB stats q = true := by simp [ansB, hl]
      rw [count_filter_of_pos (fun q => incB stats q) q bank e1,
        count_filter_of_neg (fun q => flagB stats q && !incB stats q) q bank (by simp [e1]),
        count_filter_of_neg (fun q => !ansB stats q && !flagB stats q) q bank (by simp [e3]),
        count_filter_of_neg (fun q => corB stats q && !flagB stats q) q bank (by simp [e2])]
      omega

/-- Claim C1: For every bank with unique qids and every history, the adaptive
pool contains every question of the bank exactly once, and equals the
concatenation, in the fixed priority order, of: incorrect-answered questions,
flagged not-incorrect questions, unanswered unflagged questions, and
correctly-answered unflagged questions, each bucket a stable filter of the
bank's stored order. -/
theorem adaptive_pool_complete_priority (bank : List Question) (stats : Stats)
    (hq : (bank.map Question.qid).Nodup) :
    (∀ q ∈ bank, (build_adaptive_pool bank stats).count q = 1) ∧
    build_adaptive_pool bank stats =
      bank.filter (fun q => incB stats q)
      ++ bank.filter (fun q => flagB stats q && !incB stats q)
      ++ bank.filter (fun q => !ansB stats q && !flagB stats q)
      ++ bank.filter (fun q => corB stats q && !flagB stats q) := by
  refine ⟨fun q hqm => ?_, adaptive_pool_eq_buckets bank stats⟩
  have hnd : bank.Nodup := List.Nodup.of_map _ hq
  have hperm := adaptive_pool_perm_bank bank stats
  rw [List.perm_iff_count] at hperm
  rw [hperm q]
  exact List.count_eq_one_of_mem hnd hqm

/-- A concrete bank/history pair: question 1 answered incorrectly, question 2
flagged and unanswered, question 3 unanswered. -/
def qW1 : Question :=
  { qid := 1, id_num := 1, category := some "Math", topic := some "Algebra",
    question := "1+1?", choices := ["2", "3"], answer := "2", explanation := none }

def qW2 : Question :=
  { qid := 2, id_num := 2, category := some "Math", topic := some "Algebra",
    question := "2+2?", choices := ["4", "5"], answer := "4", explanation := none }

def qW3 : Question :=
  { qid := 3, id_num := 3, category := some "Sci", topic := some "Bio",
    question := "cells?", choices := ["yes", "no"], answer := "yes", explanation := none }

def statsW : Stats := { user_answers := [(1, "3")], attempts := [], flagged := [2] }

theorem adaptive_pool_complete_priority_witness :
    (build_adaptive_pool [qW1, qW2, qW3] statsW).count qW1 = 1 :=
  (adaptive_pool_complete_priority [qW1, qW2, qW3] statsW (by decide)).1 qW1
    (by decide)

/-! ### Quiz session state machine (app.py:215-223, 283-539) -/

/-- State `st.session_state.quiz` (app.py:215-223), plus the lazily created
`current_quiz_answers` dict (app.py:403-404). -/
structure QuizState where
  active : Bool
  pool : List Question
  index : Nat
  score : Nat
  show_expl : Bool
  choice_order : List (Nat × List String)
  current_quiz_answers : List (Nat × String)
deriving DecidableEq, Repr

/-- The freshly initialised session state (app.py:215-223). -/
def initQuiz : QuizState :=
  { active := false, pool := [], index := 0, score := 0, show_expl := false,
    choice_order := [], current_quiz_answers := [] }

/-- The candidate pool the Start handler builds (app.py:334-338): the adaptive
pool in adaptive mode, the filtered standard pool otherwise. -/
def candidate_pool (bank : List Question) (stats : Stats) (adaptive : Bool)
    (cat topic status : String) : List Question :=
  if adaptive then build_adaptive_pool bank stats
  else build_standard_pool bank stats cat topic status

/-- Contract of `random.sample(l, n)` (for `n ≤ len l`): the result is some
`n`-element subsequence of `l`, in some order. -/
def SampleOK (sample : List Question → Nat → List Question) : Prop :=
  ∀ l n, n ≤ l.length →
    ∃ u, u.Sublist l ∧ u.length = n ∧ (sample l n).Perm u

/-- Contract of `random.shuffle`: the result is a permutation of the input. -/
def ShuffleOK (shuffle : List Question → List Question) : Prop :=
  ∀ l, (shuffle l).Perm l

/-- app.py:341-344: keep the whole candidate pool when it is smaller than the
requested count, otherwise sample `n` of it without replacement. -/
def final_pool_of (sample : List Question → Nat → List Question)
    (pool : List Question) (n : Nat) : List Question :=
  if pool.length < n then pool else sample pool n

/-- The Start-quiz button handler (app.py:331-360), with the two random
primitives abstracted as parameters.  `n = 0` models the disabled button
(app.py:315-317, 331: when no question matches the filters `n` is forced to 0
and the button is disabled).  `none` models a rejected start: the warning is
shown, `st.stop()` runs, and the session fields are not assigned. -/
def startQuiz (sample : List Question → Nat → List Question)
    (shuffle : List Question → List Question)
    (bank : List Question) (stats : Stats) (adaptive : Bool)
    (cat topic status : String) (n : Nat) (qz : QuizState) : Option QuizState :=
  if n = 0 then none
  else
    let pool := candidate_pool bank stats adaptive cat topic status
    let final_pool := final_pool_of sample pool n
    if final_pool.isEmpty then none
    else some { qz with active := true, pool := shuffle final_pool, index := 0,
                        score := 0, show_expl := false, choice_order := [] }

/-! ### C2 / C8: the Start transition -/

theorem candidate_pool_nodup (bank : List Question) (stats : Stats)
    (adaptive : Bool) (cat topic status : String) (h : bank.Nodup) :
    (candidate_pool bank stats adaptive cat topic status).Nodup := by
  unfold candidate_pool
  cases adaptive with
  | false =>
    simp only [Bool.false_eq_true, if_false]
    exact ((List.filter_sublist bank).nodup h : (build_standard_pool bank stats cat topic status).Nodup)
  | true =>
    simp only [if_true]
    exact (adaptive_pool_perm_bank bank stats).symm.nodup h

theorem startQuiz_eq_some (sample : List Question → Nat → List Question)
    (shuffle : List Question → List Question) (bank : List Question)
    (stats : Stats) (adaptive : Bool) (cat topic status : String) (n : Nat)
    (qz : QuizState) (h0 : n ≠ 0)
    (hne : (final_pool_of sample
      (candidate_pool bank stats adaptive cat topic status) n).isEmpty = false) :
    startQuiz sample shuffle bank stats adaptive cat topic status n qz =
      some { qz with
             active := true,
             pool := shuffle (final_pool_of sample
               (candidate_pool bank stats adaptive cat topic status) n),
             index := 0, score := 0, show_expl := false,
             choice_order := [] } := by
  unfold startQuiz
  rw [if_neg h0]
  simp only [hne, Bool.false_eq_true, if_false]

/-- Claim C2, amended: With the `random.sample` / `random.shuffle` contracts,
a Nodup bank, and requested count `n ≥ 1`: when the candidate pool has
`m ≥ n` members, Start assigns a session pool of exactly `n` distinct
questions drawn from the candidate pool; when `1 ≤ m < n`, it assigns the
whole candidate pool (a permutation of it, so exactly `m` questions).
(The claim's `m < n` case fails at `m = 0`, where Start is rejected
instead — see the counterexample.) -/
theorem start_sampling_sizes (sample : List Question → Nat → List Question)
    (shuffle : List Question → List Question) (bank : List Question)
    (stats : Stats) (adaptive : Bool) (cat topic status : String) (n : Nat)
    (qz : QuizState) (hs : SampleOK sample) (hsh : ShuffleOK shuffle)
    (hnd : bank.Nodup) (hn : 1 ≤ n) :
    (n ≤ (candidate_pool bank stats adaptive cat topic status).length →
      ∃ qz', startQuiz sample shuffle bank stats adaptive cat topic status n qz
          = some qz' ∧
        qz'.pool.length = n ∧ qz'.pool.Nodup ∧
        ∀ q ∈ qz'.pool, q ∈ candidate_pool bank stats adaptive cat topic status) ∧
    ((candidate_pool bank stats adaptive cat topic status).length < n →
      1 ≤ (candidate_pool bank stats adaptive cat topic status).length →
      ∃ qz', startQuiz sample shuffle bank stats adaptive cat topic status n qz
          = some qz' ∧
        qz'.pool.Perm (candidate_pool bank stats adaptive cat topic status)) := by
  set cand := candidate_pool bank stats adaptive cat topic status with hcand
  have h0 : n ≠ 0 := by omega
  constructor
  · intro hle
    have hge : ¬ (cand.length < n) := not_lt.mpr hle
    have hfp : final_pool_of sample cand n = sample cand n := by
      unfold final_pool_of
      rw [if_neg hge]
    obtain ⟨u, hsub, hulen, hperm⟩ := hs cand n hle
    have hslen : (sample cand n).length = n := by rw [hperm.length_eq, hulen]
    have hnonnil : sample cand n ≠ [] := by
      intro hnil
      rw [hnil] at hslen
      simp at hslen
      omega
    have hne : (final_pool_of sample cand n).isEmpty = false := by
      rw [hfp, List.isEmpty_eq_false]
      exact hnonnil
    have h2 : (shuffle (final_pool_of sample cand n)).Perm u := by
      rw [hfp]
      exact (hsh _).trans hperm
    refine ⟨_, startQuiz_eq_some sample shuffle bank stats adaptive cat topic
      status n qz h0 hne, ?_, ?_, ?_⟩
    · show (shuffle (final_pool_of sample cand n)).length = n
      rw [hfp, (hsh _).length_eq, hslen]
    · show (shuffle (final_pool_of sample cand n)).Nodup
      have hcnd : cand.Nodup :=
        candidate_pool_nodup bank stats adaptive cat topic status hnd
      exact h2.symm.nodup (hsub.nodup hcnd)
    · intro q hq
      exact hsub.subset (h2.mem_iff.mp hq)
  · intro hlt hpos
    have hfp : final_pool_of sample cand n = cand := by
      unfold final_pool_of
      rw [if_pos hlt]
    have hnonnil : cand ≠ [] := by
      intro hnil
      rw [hnil] at hpos
      simp at hpos
    have hne : (final_pool_of sample cand n).isEmpty = false := by
      rw [hfp, List.isEmpty_eq_false]
      exact hnonnil
    refine ⟨_, startQuiz_eq_some sample shuffle bank stats adaptive cat topic
      status n qz h0 hne, ?_⟩
    show (shuffle (final_pool_of sample cand n)).Perm cand
    rw [hfp]
    exact hsh cand

/-- A deterministic instance of the `random.sample` contract. -/
def sampleTake (l : List Question) (k : Nat) : List Question := l.take k

/-- A deterministic instance of the `random.shuffle` contract. -/
def shuffleIdQ (l : List Question) : List Question := l

def statsEmpty : Stats := { user_answers := [], attempts := [], flagged := [] }

theorem sampleTake_ok : SampleOK sampleTake := by
  intro l n hn
  refine ⟨l.take n, List.take_sublist n l, ?_, List.Perm.refl _⟩
  rw [List.length_take]
  omega

theorem shuffleIdQ_ok : ShuffleOK shuffleIdQ := fun l => List.Perm.refl l

/-- Claim C2, counterexample: With an empty candidate pool (`m = 0`) and
requested count `n = 1`, Start assigns no session pool at all (it is
rejected), contradicting the claim that with `m < n` it assigns a pool of
exactly `m` questions. -/
theorem start_sampling_empty_cex :
    startQuiz sampleTake shuffleIdQ [] statsEmpty false "All" "All" "All" 1
      initQuiz = none := rfl

theorem start_sampling_sizes_witness :
    ∃ qz', startQuiz sampleTake shuffleIdQ [qW1] statsEmpty false "All" "All"
        "All" 1 initQuiz = some qz' ∧
      qz'.pool.length = 1 ∧ qz'.pool.Nodup ∧
      ∀ q ∈ qz'.pool, q ∈ candidate_pool [qW1] statsEmpty false "All" "All" "All" :=
  (start_sampling_sizes sampleTake shuffleIdQ [qW1] statsEmpty false "All"
    "All" "All" 1 initQuiz sampleTake_ok shuffleIdQ_ok (by decide)
    (by decide)).1 (by decide)

/-- Claim C8: Whenever the candidate pool (for either mode and any filters) is
empty, the Start operation is rejected: the no-matching-questions warning path
runs, `none` is returned, and the session fields (`active`, `pool`, `index`,
`score`) are not assigned. -/
theorem start_empty_pool_rejected (sample : List Question → Nat → List Question)
    (shuffle : List Question → List Question) (bank : List Question)
    (stats : Stats) (adaptive : Bool) (cat topic status : String) (n : Nat)
    (qz : QuizState)
    (h : candidate_pool bank stats adaptive cat topic status = []) :
    startQuiz sample shuffle bank stats adaptive cat topic status n qz = none := by
  unfold startQuiz
  by_cases h0 : n = 0
  · rw [if_pos h0]
  · rw [if_neg h0]
    have hn1 : 0 < n := Nat.pos_of_ne_zero h0
    have hfp : final_pool_of sample
        (candidate_pool bank stats adaptive cat topic status) n = [] := by
      unfold final_pool_of
      rw [h]
      simp [hn1]
    simp only [hfp]
    rfl

theorem start_empty_pool_rejected_witness :
    startQuiz sampleTake shuffleIdQ [] statsEmpty true "All" "All" "All" 3
      initQuiz = none :=
  start_empty_pool_rejected sampleTake shuffleIdQ [] statsEmpty true "All"
    "All" "All" 3 initQuiz rfl

/-- The user interactions of one active quiz (app.py:429-539): revealing a
question's shuffled choice order, submitting an answer, advancing, and the
flag checkbox. -/
inductive QAction where
  | reveal : QAction
  | submit : String → Nat → QAction
  | advance : QAction
  | flag : Bool → QAction
deriving DecidableEq, Repr

/-- One interaction step on (session state, history store).  Each branch is
guarded exactly as in the page script: a handler only runs while a quiz is
active with a current question (`index < len(pool)`, app.py:378,398), submit
only when the question is unanswered in this session (app.py:436), advance
only once it is answered (app.py:535). -/
def stepQuiz (shuffle : List String → List String)
    (s : QuizState × Stats) (a : QAction) : QuizState × Stats :=
  match a with
  | QAction.reveal =>
    let qz := s.1
    if qz.active then
      match qz.pool.get? qz.index with
      | none => s
      | some q =>
        if (lookupA qz.choice_order q.qid).isSome then s
        else ({ qz with choice_order := insertA qz.choice_order q.qid (shuffle q.choices) }, s.2)
    else s
  | QAction.submit sel now =>
    let qz := s.1
    let st := s.2
    if qz.active then
      match qz.pool.get? qz.index with
      | none => s
      | some q =>
        if (lookupA qz.current_quiz_answers q.qid).isSome then s
        else
          let qz1 := { qz with
            current_quiz_answers := insertA qz.current_quiz_answers q.qid sel }
          let st1 := { st with
            user_answers := insertA st.user_answers q.qid sel,
            attempts := st.attempts ++ [{ qid := q.qid, correct := sel == q.answer, ts := now }] }
          let qz2 := if sel = q.answer then { qz1 with score := qz1.score + 1 } else qz1
          ({ qz2 with show_expl := true }, st1)
    else s
  | QAction.advance =>
    let qz := s.1
    if qz.active then
      match qz.pool.get? qz.index with
      | none => s
      | some q =>
        if (lookupA qz.current_quiz_answers q.qid).isSome then
          ({ qz with index := qz.index + 1, show_expl := false }, s.2)
        else s
    else s
  | QAction.flag b =>
    let qz := s.1
    let st := s.2
    if qz.active then
      match qz.pool.get? qz.index with
      | none => s
      | some q =>
        if b then
          if q.qid ∈ st.flagged then s
          else (qz, { st with flagged := st.flagged ++ [q.qid] })
        else
          if q.qid ∈ st.flagged then (qz, { st with flagged := st.flagged.erase q.qid })
          else s
    else s

/-! ### C7: score monotonicity and exact submit increments -/

theorem stepQuiz_score_le (shuffle : List String → List String)
    (s : QuizState × Stats) (a : QAction) :
    s.1.score ≤ (stepQuiz shuffle s a).1.score := by
  cases a <;> simp only [stepQuiz] <;> repeat' split
  all_goals simp

theorem stepQuiz_score_le_foldl (shuffle : List String → List String)
    (s : QuizState × Stats) (acts : List QAction) :
    s.1.score ≤ (acts.foldl (stepQuiz shuffle) s).1.score := by
  induction acts generalizing s with
  | nil => exact Nat.le_refl _
  | cons a t ih =>
    exact Nat.le_trans (stepQuiz_score_le shuffle s a) (ih (stepQuiz shuffle s a))

theorem stepQuiz_score_submit (shuffle : List String → List String)
    (s : QuizState × Stats) (sel : String) (now : Nat) (q : Question)
    (hact : s.1.active = true) (hq : s.1.pool.get? s.1.index = some q)
    (hun : lookupA s.1.current_quiz_answers q.qid = none) :
    (stepQuiz shuffle s (QAction.submit sel now)).1.score
      = s.1.score + (if sel = q.answer then 1 else 0) := by
  simp only [stepQuiz, hact, if_true, hq, hun, Option.isSome_none,
    Bool.false_eq_true, if_false]
  by_cases hsel : sel = q.answer
  · rw [if_pos hsel, if_pos hsel]
  · rw [if_neg hsel, if_neg hsel]
    rfl

theorem stepQuiz_score_other (shuffle : List String → List String)
    (s : QuizState × Stats) (a : QAction)
    (h : ∀ sel now, a ≠ QAction.submit sel now) :
    (stepQuiz shuffle s a).1.score = s.1.score := by
  cases a with
  | submit sel now => exact absurd rfl (h sel now)
  | reveal =>
    simp only [stepQuiz]
    repeat' split
    all_goals rfl
  | advance =>
    simp only [stepQuiz]
    repeat' split
    all_goals rfl
  | flag b =>
    simp only [stepQuiz]
    repeat' split
    all_goals rfl

/-- Claim C7: Across a quiz session, `score` is non-decreasing over any
sequence of transitions; a Submit on the current, not-yet-answered question
increases it by exactly 1 when the selection equals the question's answer and
leaves it unchanged otherwise; and no non-Submit transition changes it. -/
theorem score_monotone_and_submit (shuffle : List String → List String) :
    (∀ (s : QuizState × Stats) (acts : List QAction),
      s.1.score ≤ (acts.foldl (stepQuiz shuffle) s).1.score) ∧
    (∀ (s : QuizState × Stats) (sel : String) (now : Nat) (q : Question),
      s.1.active = true → s.1.pool.get? s.1.index = some q →
      lookupA s.1.current_quiz_answers q.qid = none →
      (stepQuiz shuffle s (QAction.submit sel now)).1.score
        = s.1.score + (if sel = q.answer then 1 else 0)) ∧
    (∀ (s : QuizState × Stats) (a : QAction),
      (∀ sel now, a ≠ QAction.submit sel now) →
      (stepQuiz shuffle s a).1.score = s.1.score) :=
  ⟨stepQuiz_score_le_foldl shuffle,
   fun s sel now q hact hq hun =>
     stepQuiz_score_submit shuffle s sel now q hact hq hun,
   fun s a h => stepQuiz_score_other shuffle s a h⟩

/-- Identity instance of the in-place `random.shuffle` on choice lists. -/
def shuffleIdS (l : List String) : List String := l

/-- An active one-question session about `qW2`, nothing answered yet. -/
def qzW : QuizState :=
  { active := true, pool := [qW2], index := 0, score := 0, show_expl := false,
    choice_order := [], current_quiz_answers := [] }

theorem score_monotone_and_submit_witness :
    (stepQuiz shuffleIdS (qzW, statsEmpty) (QAction.submit "4" 5)).1.score
      = (qzW, statsEmpty).1.score + (if "4" = qW2.answer then 1 else 0) :=
  (score_monotone_and_submit shuffleIdS).2.1 (qzW, statsEmpty) "4" 5 qW2
    rfl rfl rfl

/-! ### C6: choice-order stability -/

theorem stepQuiz_choice_order_reveal (shuffle : List String → List String)
    (s : QuizState × Stats) (q : Question)
    (hact : s.1.active = true) (hq : s.1.pool.get? s.1.index = some q)
    (hnone : lookupA s.1.choice_order q.qid = none) :
    lookupA (stepQuiz shuffle s QAction.reveal).1.choice_order q.qid
      = some (shuffle q.choices) := by
  simp only [stepQuiz, hact, if_true, hq, hnone, Option.isSome_none,
    Bool.false_eq_true, if_false]
  rw [lookupA_insertA]
  simp

theorem stepQuiz_choice_order_keep (shuffle : List String → List String)
    (s : QuizState × Stats) (a : QAction) (k : Nat) (l : List String)
    (h : lookupA s.1.choice_order k = some l) :
    lookupA (stepQuiz shuffle s a).1.choice_order k = some l := by
  cases a with
  | reveal =>
    simp only [stepQuiz]
    split
    · split
      · exact h
      · split
        · exact h
        · rename_i q hq hns
          rw [lookupA_insertA]
          by_cases hk : k = q.qid
          · subst hk
            rw [h] at hns
            exact absurd rfl hns
          · rw [if_neg hk]
            exact h
    · exact h
  | submit sel now =>
    simp only [stepQuiz]
    repeat' split
    all_goals exact h
  | advance =>
    simp only [stepQuiz]
    repeat' split
    all_goals exact h
  | flag b =>
    simp only [stepQuiz]
    repeat' split
    all_goals exact h

theorem stepQuiz_choice_order_keep_foldl (shuffle : List String → List String)
    (s : QuizState × Stats) (acts : List QAction) (k : Nat) (l : List String)
    (h : lookupA s.1.choice_order k = some l) :
    lookupA ((acts.foldl (stepQuiz shuffle) s)).1.choice_order k = some l := by
  induction acts generalizing s with
  | nil => exact h
  | cons a t ih =>
    exact ih (stepQuiz shuffle s a) (stepQuiz_choice_order_keep shuffle s a k l h)

/-- Claim C6: Within one session, the entry `choice_order[qid]` is computed on
the first visit to the question as a permutation (bijection with multiplicity)
of that question's stored `choices` list, and every later transition of the
session leaves the stored entry unchanged (it is never reshuffled). -/
theorem choice_order_perm_stable (shuffle : List String → List String)
    (hsh : ∀ l, (shuffle l).Perm l) :
    (∀ (s : QuizState × Stats) (q : Question),
      s.1.active = true → s.1.pool.get? s.1.index = some q →
      lookupA s.1.choice_order q.qid = none →
      lookupA (stepQuiz shuffle s QAction.reveal).1.choice_order q.qid
          = some (shuffle q.choices) ∧
        (shuffle q.choices).Perm q.choices) ∧
    (∀ (s : QuizState × Stats) (a : QAction) (k : Nat) (l : List String),
      lookupA s.1.choice_order k = some l →
      lookupA (stepQuiz shuffle s a).1.choice_order k = some l) ∧
    (∀ (s : QuizState × Stats) (acts : List QAction) (k : Nat) (l : List String),
      lookupA s.1.choice_order k = some l →
      lookupA ((acts.foldl (stepQuiz shuffle) s)).1.choice_order k = some l) :=
  ⟨fun s q hact hq hnone =>
    ⟨stepQuiz_choice_order_reveal shuffle s q hact hq hnone, hsh q.choices⟩,
   fun s a k l h => stepQuiz_choice_order_keep shuffle s a k l h,
   fun s acts k l h => stepQuiz_choice_order_keep_foldl shuffle s acts k l h⟩

theorem choice_order_perm_stable_witness :
    lookupA (stepQuiz shuffleIdS (qzW, statsEmpty) QAction.reveal).1.choice_order
        qW2.qid = some (shuffleIdS qW2.choices) ∧
      (shuffleIdS qW2.choices).Perm qW2.choices :=
  (choice_order_perm_stable shuffleIdS (fun l => List.Perm.refl l)).1
    (qzW, statsEmpty) qW2 rfl rfl rfl

/-! ### Bulk import (app.py:719-754) -/

/-- One spreadsheet cell as the import loop sees it through pandas:
`absent` = the column does not exist in the sheet (`Series.get` yields
`None`); `blank` = an empty cell, which `pd.read_excel` materialises as the
float NaN; `text s` = a string value. -/
inductive Cell where
  | absent : Cell
  | blank : Cell
  | text : String → Cell
deriving DecidableEq, Repr

/-- Python truthiness of a cell value, as tested by the guard
`if not r.get("question") or not r.get("answer")` (app.py:737): `None` and
the empty string are falsy, but NaN is a nonzero float and hence truthy. -/
def Cell.truthy : Cell → Bool
  | Cell.absent => false
  | Cell.blank => true
  | Cell.text s => !(s == "")

/-- Predicate `pd.notna(r[c])` (app.py:733): false for NaN, true for a string value. -/
def Cell.notna : Cell → Bool
  | Cell.absent => false
  | Cell.blank => false
  | Cell.text _ => true

/-- Conversion `str(r.get(col, ""))` (app.py:744-749): an absent column falls back to
the `""` default, a NaN cell prints as the string `"nan"`. -/
def Cell.toStr : Cell → String
  | Cell.absent => ""
  | Cell.blank => "nan"
  | Cell.text s => s

/-- One source row of the uploaded sheet: the mandatory-by-spec columns plus
the cells of the `choice*` columns in column order. -/
structure Row where
  question : Cell
  answer : Cell
  category : Cell
  topic : Cell
  explanation : Cell
  choices : List Cell
deriving DecidableEq, Repr

/-- The row-validation guard (app.py:737): the row is skipped when its
`question` or `answer` value is falsy. -/
def rowSkipped (r : Row) : Bool :=
  !(Cell.truthy r.question) || !(Cell.truthy r.answer)

/-- app.py:729-734: the values of the `choice*` columns that are not NaN. -/
def rowChoices (r : Row) : List String :=
  (r.choices.filter Cell.notna).map Cell.toStr

/-- The Import-Questions button handler loop (app.py:726-751).  `fresh i`
models the `uuid.uuid4().hex[:10]` value drawn for the `i`-th appended row.
Returns the bank after the loop together with `questions_imported`.  Note the
source assigns `id_num := len(bank) + 1` at append time (app.py:743). -/
def bulkImportRows (fresh : Nat → Nat) :
    List Row → List Question → Nat → List Question × Nat
  | [], bank, _ => (bank, 0)
  | r :: rs, bank, i =>
    if rowSkipped r then bulkImportRows fresh rs bank i
    else
      let q : Question :=
        { qid := fresh i, id_num := bank.length + 1,
          category := some r.category.toStr, topic := some r.topic.toStr,
          question := r.question.toStr, choices := rowChoices r,
          answer := r.answer.toStr, explanation := some r.explanation.toStr }
      let res := bulkImportRows fresh rs (bank ++ [q]) (i + 1)
      (res.1, res.2 + 1)

/-- A fully populated valid source row. -/
def rowV1 : Row :=
  { question := Cell.text "Q1?", answer := Cell.text "A",
    category := Cell.text "C", topic := Cell.text "T",
    explanation := Cell.text "E",
    choices := [Cell.text "A", Cell.text "B"] }

/-- A second valid source row. -/
def rowV2 : Row :=
  { question := Cell.text "Q2?", answer := Cell.text "B",
    category := Cell.text "C", topic := Cell.text "T",
    explanation := Cell.text "E",
    choices := [Cell.text "A", Cell.text "B"] }

/-- A source row whose `answer` cell is blank (read as NaN). -/
def rowBlankAns : Row :=
  { question := Cell.text "Q3?", answer := Cell.blank,
    category := Cell.text "C", topic := Cell.text "T",
    explanation := Cell.text "E",
    choices := [Cell.text "A", Cell.text "B"] }

/-- Claim C9, code-bug evidence: A source with 2 valid rows and 1 row whose `answer`
cell is blank imports all 3 rows: the blank cell arrives as NaN, which is
truthy in Python, so the `not r.get("answer")` guard does not fire and the
row is imported with the literal answer string `"nan"` — the spec requires
the row to be skipped and exactly 2 questions added. -/
theorem bulk_import_blank_answer_imported :
    (bulkImportRows (fun i => 100 + i) [rowV1, rowV2, rowBlankAns] [] 0).2 = 3 ∧
    ((bulkImportRows (fun i => 100 + i) [rowV1, rowV2, rowBlankAns] [] 0).1.map
      Question.answer) = ["A", "B", "nan"] := by
  exact ⟨rfl, rfl⟩

/-- Claim C5, code-bug evidence: On a bank whose `id_num` values are `{1, 3}` (the
question numbered 2 was removed), importing one valid row assigns the new
question `id_num = len(bank) + 1 = 3`, not `max existing + 1 = 4`, so the
bank's `id_num` values are no longer unique after the import. -/
theorem bulk_import_idnum_duplicate :
    ((bulkImportRows (fun i => 100 + i) [rowV1] [qW1, qW3] 0).1.map
      Question.id_num) = [1, 3, 3] ∧
    ¬ (((bulkImportRows (fun i => 100 + i) [rowV1] [qW1, qW3] 0).1.map
      Question.id_num).Nodup) := by
  refine ⟨rfl, by decide⟩

/-! ### C10: `ensure_ids` is a pure fill-in of missing fields -/

/-- A bank record as loaded from `question_bank.json`, before `ensure_ids`
runs: any of `qid`, `id_num`, `choices`, `attachments` may be missing. -/
structure RawQuestion where
  qid : Option Nat
  id_num : Option Nat
  category : Option String
  topic : Option String
  question : String
  choices : Option (List String)
  answer : String
  explanation : Option String
  attachments : Option (List String)
deriving DecidableEq, Repr

/-- The `for q in bank` loop of `ensure_ids` (app.py:179-185): `setdefault`
for `qid`/`choices`/`attachments`, and the `next_id` counter (argument `k`)
for records missing `id_num`.  `fresh i` models the `uuid.uuid4().hex[:10]`
drawn while visiting record `i`. -/
def ensureGo (fresh : Nat → Nat) :
    Nat → Nat → List RawQuestion → List RawQuestion
  | _, _, [] => []
  | i, k, q :: rest =>
    let q' : RawQuestion :=
      { q with qid := some (q.qid.getD (fresh i)),
               id_num := some (q.id_num.getD k),
               choices := some (q.choices.getD []),
               attachments := some (q.attachments.getD []) }
    q' :: ensureGo fresh (i + 1) (if q.id_num = none then k + 1 else k) rest

/-- Function `ensure_ids` (app.py:172-185): compute `next_id` as one more than the
maximum existing `id_num` (`q.get("id_num", 0)`; 1 on an empty bank), then
fill the missing fields of each record in place. -/
def ensure_ids (fresh : Nat → Nat) (bank : List RawQuestion) : List RawQuestion :=
  let existing := bank.map (fun q => q.id_num.getD 0)
  let next_id := if existing.isEmpty then 1 else existing.foldr max 0 + 1
  ensureGo fresh 0 next_id bank

theorem ensureGo_length (fresh : Nat → Nat) :
    ∀ (bank : List RawQuestion) (i k : Nat),
      (ensureGo fresh i k bank).length = bank.length := by
  intro bank
  induction bank with
  | nil => intro i k; rfl
  | cons q rest ih =>
    intro i k
    simp only [ensureGo, List.length_cons, ih]

theorem ensureGo_get? (fresh : Nat → Nat) :
    ∀ (bank : List RawQuestion) (i k j : Nat) (r : RawQuestion),
      bank.get? j = some r →
      ∃ o, (ensureGo fresh i k bank).get? j = some o ∧
        (∀ v, r.qid = some v → o.qid = some v) ∧
        (∀ v, r.id_num = some v → o.id_num = some v) ∧
        (∀ v, r.choices = some v → o.choices = some v) ∧
        (∀ v, r.attachments = some v → o.attachments = some v) ∧
        o.category = r.category ∧ o.topic = r.topic ∧
        o.question = r.question ∧ o.answer = r.answer ∧
        o.explanation = r.explanation := by
  intro bank
  induction bank with
  | nil => intro i k j r h; cases h
  | cons q rest ih =>
    intro i k j r h
    cases j with
    | zero =>
      cases h
      refine ⟨_, rfl, ?_, ?_, ?_, ?_, rfl, rfl, rfl, rfl, rfl⟩
      · intro v hv; rw [hv]; rfl
      · intro v hv; rw [hv]; rfl
      · intro v hv; rw [hv]; rfl
      · intro v hv; rw [hv]; rfl
    | succ j' =>
      exact ih (i + 1) (if q.id_num = none then k + 1 else k) j' r h

/-- Claim C10: `ensure_ids` never adds, removes or reorders bank records, and
for every record it preserves any already-present `qid`, `id_num`, `choices`
and `attachments` values (filling only the missing ones) while leaving all
other fields untouched, so loading the store never alters existing
identities. -/
theorem ensure_ids_frame (fresh : Nat → Nat) (bank : List RawQuestion) :
    (ensure_ids fresh bank).length = bank.length ∧
    ∀ (j : Nat) (r : RawQuestion), bank.get? j = some r →
      ∃ o, (ensure_ids fresh bank).get? j = some o ∧
        (∀ v, r.qid = some v → o.qid = some v) ∧
        (∀ v, r.id_num = some v → o.id_num = some v) ∧
        (∀ v, r.choices = some v → o.choices = some v) ∧
        (∀ v, r.attachments = some v → o.attachments = some v) ∧
        o.category = r.category ∧ o.topic = r.topic ∧
        o.question = r.question ∧ o.answer = r.answer ∧
        o.explanation = r.explanation :=
  ⟨ensureGo_length fresh bank 0 _,
   fun j r h => ensureGo_get? fresh bank 0 _ j r h⟩

/-- A raw record with every optional field already present. -/
def rawW : RawQuestion :=
  { qid := some 7, id_num := some 9, category := some "c", topic := some "t",
    question := "q?", choices := some ["a"], answer := "a",
    explanation := some "e", attachments := some ["f"] }

theorem ensure_ids_frame_witness :
    (ensure_ids (fun i => 500 + i) [rawW]).length = 1 ∧
    ∃ o, (ensure_ids (fun i => 500 + i) [rawW]).get? 0 = some o ∧
      o.qid = some 7 ∧ o.id_num = some 9 := by
  refine ⟨(ensure_ids_frame (fun i => 500 + i) [rawW]).1, ?_⟩
  obtain ⟨o, ho, hq, hid, -, -, -, -, -, -, -⟩ :=
    (ensure_ids_frame (fun i => 500 + i) [rawW]).2 0 rawW rfl
  exact ⟨o, ho, hq 7 rfl, hid 9 rfl⟩

end QuizApp
